import Mathlib

/-!
Verification of the employee-offboarding intake service.

The definitions below are a shallow embedding of the Express/PostgreSQL
backend (`src/unnamed/part_000`, the server listening on port 3100; the
variant `src/Backend/server.js` is an older copy of the same handlers).
Pure request handlers become Lean functions; the PostgreSQL table becomes
an explicit `Store` value threaded through the handlers; the JavaScript
regular expressions of the validation block become decidable character
predicates.

Modelling conventions:
- Text fields of the request body are `String`; a missing field behaves
  exactly like the empty string because every validation rule first tests
  `!field`, which is true for both `undefined` and `""`, so the two are
  indistinguishable to the handler.
- `finalSalary` and `bonus` are `Option ℚ`: `some v` means the JavaScript
  value coerces to the finite number `v` (`Number(x) = v`), `none` means
  `isNaN(x)` is true.  The handler only uses `isNaN` and numeric
  comparisons, both of which coerce through `Number`, so this abstraction
  is exact.
- String length is counted in characters; the claims only exercise ASCII
  data, where this agrees with JavaScript's UTF-16 `length`.
-/

namespace Offboarding

/-! ### Character classes used by the validation regexes -/

/-- Word characters in the JavaScript (non-unicode) sense: `[A-Za-z0-9_]`. -/
def isWordChar (c : Char) : Bool := c.isAlphanum || c == '_'

/-- The character class `[0-9\s\W_]` of the feedback/acknowledgment regex:
digits, whitespace, non-word characters, and the underscore. -/
def rejectClassChar (c : Char) : Bool :=
  c.isDigit || c.isWhitespace || !(isWordChar c) || c == '_'

/-- Test of `/^[0-9\s\W_]+$/` on a string: at least one character, and every
character is in the class. -/
def allRejectClass (s : String) : Bool :=
  !s.data.isEmpty && s.data.all rejectClassChar

/-! ### Word-pattern regexes for `empName` and `position`

The regex `/^[A-Z][a-zA-Z]+(?: [A-Z][a-zA-Z]+)*$/` matches exactly the
strings that are one or more words joined by single spaces, each word an
uppercase letter followed by at least one letter.  Because a word can never
contain a space, a string matches iff every segment obtained by splitting
at each space character matches the word pattern (an empty segment — from a
leading, trailing or doubled space, or from the empty string — matches no
word pattern and correctly fails).  `splitWords` is that splitting,
mirroring `String.splitOn " "` on the character list. -/

def splitWords : List Char → List (List Char)
  | [] => [[]]
  | c :: cs =>
    if c = ' ' then [] :: splitWords cs
    else
      match splitWords cs with
      | w :: ws => (c :: w) :: ws
      | [] => [[c]]

/-- One word of the `empName` regex: `[A-Z][a-zA-Z]+`. -/
def nameWord (w : List Char) : Bool :=
  match w with
  | [] => false
  | c :: rest => c.isUpper && !rest.isEmpty && rest.all Char.isAlpha

/-- Test of `/^[A-Z][a-zA-Z]+(?: [A-Z][a-zA-Z]+)*$/`. -/
def empNameMatches (s : String) : Bool := (splitWords s.data).all nameWord

/-- One word of the `position` regex: `[A-Za-z]+`. -/
def positionWord (w : List Char) : Bool := !w.isEmpty && w.all Char.isAlpha

/-- Test of `/^[A-Za-z]+(?: [A-Za-z]+)*$/`. -/
def positionMatches (s : String) : Bool := (splitWords s.data).all positionWord

/-- Test of `/^ATS0(?!000)\d{3}$/`: the literal `ATS0`, then exactly three
digits that are not the literal `000`. -/
def empIdMatches (s : String) : Bool :=
  match s.data with
  | ['A', 'T', 'S', '0', d1, d2, d3] =>
    d1.isDigit && d2.isDigit && d3.isDigit && !(d1 == '0' && d2 == '0' && d3 == '0')
  | _ => false

/-! ### The request body and the validation block -/

/-- The destructured body of `POST /api/offboarding/submit`. -/
structure Body where
  empName : String
  position : String
  department : String
  empId : String
  feedback : String
  acknowledgment : String
  finalSalary : Option ℚ
  bonus : Option ℚ
deriving DecidableEq

/-- The eight validated fields, in the order the handler checks them. -/
inductive Field where
  | empName
  | position
  | department
  | empId
  | feedback
  | acknowledgment
  | finalSalary
  | bonus
deriving DecidableEq, Fintype

/-- The `error` string of the 400 response for each failing field. -/
def errorMessage : Field → String
  | .empName => "Invalid employee name"
  | .position => "Invalid position"
  | .department => "Invalid department"
  | .empId => "Invalid employee ID"
  | .feedback => "Invalid feedback"
  | .acknowledgment => "Invalid acknowledgment"
  | .finalSalary => "Invalid final salary"
  | .bonus => "Invalid bonus amount"

/-- Guard of `if (!empName || !/^[A-Z][a-zA-Z]+(?: [A-Z][a-zA-Z]+)*$/.test(empName))`. -/
def empNameInvalid (s : String) : Bool := s == "" || !empNameMatches s

/-- Guard of `if (!position || !/^[A-Za-z]+(?: [A-Za-z]+)*$/.test(position))`. -/
def positionInvalid (s : String) : Bool := s == "" || !positionMatches s

/-- Guard of `if (!department || !['Engineering','Marketing','HR','Finance'].includes(department))`. -/
def departmentInvalid (s : String) : Bool :=
  s == "" || !(["Engineering", "Marketing", "HR", "Finance"].contains s)

/-- Guard of `if (!empId || !/^ATS0(?!000)\d{3}$/.test(empId))`. -/
def empIdInvalid (s : String) : Bool := s == "" || !empIdMatches s

/-- Guard of `if (!feedback || feedback.length > 500 || /^[0-9\s\W_]+$/.test(feedback))`. -/
def feedbackInvalid (s : String) : Bool :=
  s == "" || s.length > 500 || allRejectClass s

/-- Guard of `if (!acknowledgment || acknowledgment.length > 300 || /^[0-9\s\W_]+$/.test(acknowledgment))`. -/
def acknowledgmentInvalid (s : String) : Bool :=
  s == "" || s.length > 300 || allRejectClass s

/-- Guard of `if (isNaN(finalSalary) || finalSalary < 1000 || finalSalary > 1000000)`. -/
def finalSalaryInvalid : Option ℚ → Bool
  | none => true
  | some v => v < 1000 || v > 1000000

/-- Guard of `if (isNaN(bonus) || bonus < 0 || bonus > 100000)`. -/
def bonusInvalid : Option ℚ → Bool
  | none => true
  | some v => v < 0 || v > 100000

/-- The guard of the validation block for one field of the body. -/
def fieldInvalid (b : Body) : Field → Bool
  | .empName => empNameInvalid b.empName
  | .position => positionInvalid b.position
  | .department => departmentInvalid b.department
  | .empId => empIdInvalid b.empId
  | .feedback => feedbackInvalid b.feedback
  | .acknowledgment => acknowledgmentInvalid b.acknowledgment
  | .finalSalary => finalSalaryInvalid b.finalSalary
  | .bonus => bonusInvalid b.bonus

/-- The order in which the handler's validation block checks the fields. -/
def ruleOrder : List Field :=
  [.empName, .position, .department, .empId, .feedback, .acknowledgment,
   .finalSalary, .bonus]

/-- The validation block of `POST /api/offboarding/submit`: each guard in
source order, short-circuiting at the first failure. -/
def validate (b : Body) : Option Field :=
  if empNameInvalid b.empName then some .empName
  else if positionInvalid b.position then some .position
  else if departmentInvalid b.department then some .department
  else if empIdInvalid b.empId then some .empId
  else if feedbackInvalid b.feedback then some .feedback
  else if acknowledgmentInvalid b.acknowledgment then some .acknowledgment
  else if finalSalaryInvalid b.finalSalary then some .finalSalary
  else if bonusInvalid b.bonus then some .bonus
  else none

/-! ### The record store

One PostgreSQL table `offboarding` with `id SERIAL PRIMARY KEY`,
`employee_id VARCHAR(7) NOT NULL UNIQUE` and
`created_at TIMESTAMP DEFAULT CURRENT_TIMESTAMP`.  `rows` holds the
persisted rows; `nextId` is the next value of the `id` sequence.
Timestamps are abstract `Nat` instants supplied by the caller. -/

/-- One row of the `offboarding` table.  The `VARCHAR(n)` bounds of the
schema (`employee_name`/`position` 30, `department` 50, `employee_id` 7)
are enforced by `Store.insert`, which raises the `22001` value-too-long
error exactly as Postgres does, so every reachable store satisfies them. -/
structure Record where
  id : Nat
  employee_name : String
  position : String
  department : String
  employee_id : String
  feedback : String
  final_salary : ℚ
  bonus : ℚ
  acknowledgment : String
  created_at : Nat
deriving DecidableEq

/-- The state of the `offboarding` table. -/
structure Store where
  rows : List Record
  nextId : Nat
deriving DecidableEq

/-- The errors the `INSERT` can raise.  `valueTooLong` is Postgres error
class `22001` (`string data right truncation`), raised while coercing a
parameter into a `VARCHAR(n)` column; it fires during input coercion,
before any constraint is checked.  `duplicateKey` is error code `23505`
(`unique_violation`) from the `UNIQUE` constraint on `employee_id`. -/
inductive InsertError where
  | valueTooLong
  | duplicateKey
deriving DecidableEq

/-- The `INSERT INTO offboarding ... RETURNING id` statement against the
schema of `createTableQuery`.  The `VARCHAR` columns bound the inserted
values — `employee_name VARCHAR(30)`, `position VARCHAR(30)`,
`department VARCHAR(50)`, `employee_id VARCHAR(7)` — and a longer value
raises `22001` before the unique check; then the `UNIQUE` constraint on
`employee_id` raises `23505` when a row with the same `employee_id`
already exists; otherwise the row is appended with the next serial id and
the supplied timestamp.  The validation regexes place no length limit on
`empName`/`position`, so the `22001` path is reachable by validated
bodies.  Validation has already guaranteed the numeric fields are `some`,
so `getD 0` never takes its default on the path that reaches the insert. -/
def Store.insert (st : Store) (now : Nat) (b : Body) : Except InsertError (Nat × Store) :=
  if b.empName.length > 30 || b.position.length > 30 ||
      b.department.length > 50 || b.empId.length > 7 then
    .error .valueTooLong
  else if st.rows.any (fun r => r.employee_id == b.empId) then
    .error .duplicateKey
  else
    .ok (st.nextId,
      { rows := st.rows ++
          [{ id := st.nextId
             employee_name := b.empName
             position := b.position
             department := b.department
             employee_id := b.empId
             feedback := b.feedback
             final_salary := b.finalSalary.getD 0
             bonus := b.bonus.getD 0
             acknowledgment := b.acknowledgment
             created_at := now }]
        nextId := st.nextId + 1 })

/-! ### The POST /api/offboarding/submit handler -/

/-- The possible responses of the submit handler.  `serverError` is the
catch-all branch of the handler's `catch` for any insert error whose code
is not `23505`, such as the `22001` value-too-long error. -/
inductive SubmitResp where
  | invalid (msg : String)
  | created (id : Nat)
  | duplicate
  | serverError
deriving DecidableEq

/-- The HTTP status of each submit response: 400 on a validation failure,
201 with the new id on success, 409 on a duplicate employee id, 500 on any
other insert error. -/
def SubmitResp.status : SubmitResp → Nat
  | .invalid _ => 400
  | .created _ => 201
  | .duplicate => 409
  | .serverError => 500

/-- The `error` field of the JSON body of a submit response, when present. -/
def SubmitResp.errorField : SubmitResp → Option String
  | .invalid m => some m
  | .created _ => none
  | .duplicate => some "Employee ID already exists"
  | .serverError => some "Internal server error"

/-- The `{message, id}` body of a successful submit response. -/
def SubmitResp.successBody : SubmitResp → Option (String × Nat)
  | .created id => some ("Offboarding form submitted successfully", id)
  | _ => none

/-- The handler of `POST /api/offboarding/submit`: run the validation block
(first failure short-circuits with a 400 naming the field), then attempt the
insert; in the `catch`, error code 23505 becomes the 409 duplicate response
and any other error the 500 response, while success becomes the 201
response carrying the returned id. -/
def postSubmit (st : Store) (now : Nat) (b : Body) : SubmitResp × Store :=
  match validate b with
  | some f => (.invalid (errorMessage f), st)
  | none =>
    match st.insert now b with
    | .error .duplicateKey => (.duplicate, st)
    | .error .valueTooLong => (.serverError, st)
    | .ok (id, st') => (.created id, st')

/-! ### The GET /api/offboarding handler -/

/-- The shape of one element of the GET response: exactly the aliased
columns of the SELECT, in its order — `empName, position, department,
empId, feedback, finalSalary, bonus, acknowledgment, createdAt`.  The `id`
column is not selected. -/
structure ListedRecord where
  empName : String
  position : String
  department : String
  empId : String
  feedback : String
  finalSalary : ℚ
  bonus : ℚ
  acknowledgment : String
  createdAt : Nat
deriving DecidableEq

/-- The column aliasing of the SELECT applied to one row. -/
def project (r : Record) : ListedRecord :=
  { empName := r.employee_name
    position := r.position
    department := r.department
    empId := r.employee_id
    feedback := r.feedback
    finalSalary := r.final_salary
    bonus := r.bonus
    acknowledgment := r.acknowledgment
    createdAt := r.created_at }

/-- The comparison of `ORDER BY created_at DESC`. -/
def newestFirst (a b : Record) : Bool := b.created_at ≤ a.created_at

/-- The SELECT of the GET handler: every row, ordered by `created_at`
descending, projected to the aliased columns. -/
def listAll (st : Store) : List ListedRecord :=
  (st.rows.mergeSort newestFirst).map project

/-- The handler of `GET /api/offboarding`: status 200 with the full listing
(an empty table yields status 200 with an empty array, not an error). -/
def getOffboarding (st : Store) : Nat × List ListedRecord :=
  (200, listAll st)

/-! ### The GET /api/health handler -/

/-- The state the health handler can observe.  `totalCount` is
`pool.totalCount`, the number of client objects currently held by the
`pg` pool (idle or checked out); `reachable` is whether the backing store
is actually reachable at the time of the request.  The two are independent:
the pool neither discards its clients when the store goes down nor creates
one when the store comes up, and the handler performs no I/O. -/
structure PoolState where
  totalCount : Nat
  reachable : Bool
deriving DecidableEq

/-- The `database` field of the health response:
`pool.totalCount > 0 ? 'connected' : 'disconnected'`. -/
def healthDatabase (p : PoolState) : String :=
  if p.totalCount > 0 then "connected" else "disconnected"

/-- The handler of `GET /api/health`: always status 200, with the
`database` field computed from the pool's client count. -/
def healthResponse (p : PoolState) : Nat × String :=
  (200, healthDatabase p)

/-! ### Startup: connectWithRetry and initializeDatabase -/

/-- Default `maxAttempts` of `connectWithRetry`. -/
def maxAttempts : Nat := 5

/-- Default `delay` (milliseconds) of `connectWithRetry`. -/
def retryDelayMs : Nat := 5000

/-- The retry loop of `connectWithRetry`, parameterised by the outcome of
each connection attempt (`outcome k` is whether the `k`-th attempt, counted
from 0, succeeds).  `fuel` is the number of attempts still allowed; the
result is the index of the first successful attempt, or `none` when every
allowed attempt fails (the code then throws, and the startup `.catch`
calls `process.exit(1)`). -/
def connectWithRetry (outcome : Nat → Bool) : Nat → Nat → Option Nat
  | 0, _ => none
  | fuel + 1, k => if outcome k then some k else connectWithRetry outcome fuel (k + 1)

/-- Total milliseconds slept by the retry loop: after a failed attempt the
code sleeps `delay` only when further attempts remain. -/
def retryWaits (outcome : Nat → Bool) (delay : Nat) : Nat → Nat → Nat
  | 0, _ => 0
  | fuel + 1, k =>
    if outcome k then 0
    else if fuel = 0 then 0
    else delay + retryWaits outcome delay fuel (k + 1)

/-- Terminal states of the startup sequence: the server either reached
`app.listen` or called `process.exit(1)`. -/
inductive StartResult where
  | ready
  | exited
deriving DecidableEq

/-- The startup sequence `initializeDatabase().then(listen).catch(exit)`:
`connectWithRetry` with the default 5 attempts, then `CREATE TABLE IF NOT
EXISTS` (whose success is `schemaOk`), and only then `app.listen`; any
failure ends in `process.exit(1)`. -/
def startup (outcome : Nat → Bool) (schemaOk : Bool) : StartResult :=
  match connectWithRetry outcome maxAttempts 0 with
  | none => .exited
  | some _ => if schemaOk then .ready else .exited

/-! ### Helper notions for the proofs -/

/-- The position of each field in the fixed validation order. -/
def ruleIdx : Field → Nat
  | .empName => 0
  | .position => 1
  | .department => 2
  | .empId => 3
  | .feedback => 4
  | .acknowledgment => 5
  | .finalSalary => 6
  | .bonus => 7

/-- The validation chain as a function of the eight guard values alone.
`validate b` is definitionally `validateBy (fieldInvalid b)`, which lets
facts about the chain be settled by finite case analysis over the guards. -/
def validateBy (p : Field → Bool) : Option Field :=
  if p .empName then some .empName
  else if p .position then some .position
  else if p .department then some .department
  else if p .empId then some .empId
  else if p .feedback then some .feedback
  else if p .acknowledgment then some .acknowledgment
  else if p .finalSalary then some .finalSalary
  else if p .bonus then some .bonus
  else none

/-- Spec-side reading of the employee-id rule: the literal prefix `ATS0`
followed by exactly three digits that are not `000`. -/
def empIdSpec (s : String) : Prop :=
  ∃ t : String, s = "ATS0" ++ t ∧ t.length = 3 ∧
    (∀ c ∈ t.data, c.isDigit = true) ∧ t ≠ "000"

/-- Zero-padded three-digit decimal rendering of `n ≤ 999`. -/
def pad3 (n : Nat) : String :=
  ⟨[Nat.digitChar (n / 100 % 10), Nat.digitChar (n / 10 % 10), Nat.digitChar (n % 10)]⟩

/-! ### Concrete data for the witnesses -/

/-- The concrete scenario of the spec: a fully valid submission body. -/
def janeDoeBody : Body :=
  { empName := "Jane Doe"
    position := "Engineer"
    department := "Engineering"
    empId := "ATS0123"
    feedback := "Great team, sad to leave."
    acknowledgment := "I acknowledge receipt of my final pay."
    finalSalary := some 75000
    bonus := some 5000 }

/-- The row produced by persisting `janeDoeBody` as id 1 at instant 5. -/
def janeRecord : Record :=
  { id := 1
    employee_name := "Jane Doe"
    position := "Engineer"
    department := "Engineering"
    employee_id := "ATS0123"
    feedback := "Great team, sad to leave."
    final_salary := 75000
    bonus := 5000
    acknowledgment := "I acknowledge receipt of my final pay."
    created_at := 5 }

/-- A store already holding exactly the row for employee `ATS0123`. -/
def oneRowStore : Store := { rows := [janeRecord], nextId := 2 }

/-- A body passing all eight validation rules whose `empName` is 31
characters long — one character more than the `employee_name VARCHAR(30)`
column admits.  The name regex puts no upper bound on length, so this body
validates, yet its insert raises the `22001` value-too-long error. -/
def longNameBody : Body :=
  { janeDoeBody with empName := "Abcdefghijklmnopqrstuvwxyzabcde" }

lemma validate_eq_validateBy (b : Body) : validate b = validateBy (fieldInvalid b) := rfl

set_option maxRecDepth 4096

lemma validateBy_eq_find : ∀ p : Field → Bool, validateBy p = ruleOrder.find? p := by
  decide

lemma validateBy_none_iff : ∀ p : Field → Bool,
    (validateBy p = none ↔ ∀ f : Field, p f = false) := by
  decide

lemma validateBy_first : ∀ (p : Field → Bool) (f : Field), p f = true →
    ∃ g : Field, validateBy p = some g ∧ p g = true ∧ ruleIdx g ≤ ruleIdx f ∧
      ∀ h : Field, ruleIdx h < ruleIdx g → p h = false := by
  decide

lemma validateBy_some_spec : ∀ (p : Field → Bool) (g : Field), validateBy p = some g →
    p g = true ∧ ∀ h : Field, ruleIdx h < ruleIdx g → p h = false := by
  decide

lemma errorMessage_injective : ∀ x y : Field, errorMessage x = errorMessage y → x = y := by
  decide

lemma empIdInvalid_matches {s : String} (h : empIdInvalid s = false) :
    empIdMatches s = true := by
  unfold empIdInvalid at h
  rw [Bool.or_eq_false_iff] at h
  simpa using h.2

lemma empIdMatches_length {s : String} (h : empIdMatches s = true) : s.length = 7 := by
  obtain ⟨l⟩ := s
  unfold empIdMatches at h
  split at h
  next d1 d2 d3 heq =>
    rw [String.length_mk, show l = ['A', 'T', 'S', '0', d1, d2, d3] from heq]
    rfl
  next =>
    exact absurd h (by simp)

lemma department_length_le {s : String} (h : departmentInvalid s = false) : s.length ≤ 50 := by
  unfold departmentInvalid at h
  rw [Bool.or_eq_false_iff] at h
  have h2 : (["Engineering", "Marketing", "HR", "Finance"].contains s) = true := by
    have h3 := h.2
    cases hc : ["Engineering", "Marketing", "HR", "Finance"].contains s
    · rw [hc] at h3
      simp at h3
    · rfl
  rw [List.contains_eq_any_beq] at h2
  obtain ⟨x, hxl, hxe⟩ := List.any_eq_true.mp h2
  obtain rfl : s = x := eq_of_beq hxe
  fin_cases hxl <;> decide

/-- A validated body never overflows the `department` and `employee_id`
columns (the enum members are at most 11 characters and a matching
employee id is exactly 7), so for validated bodies the `22001` guard of
the insert reduces to the `empName`/`position` lengths. -/
lemma insert_guard_of_valid {b : Body} (hv : ∀ f : Field, fieldInvalid b f = false)
    (hlenN : b.empName.length ≤ 30) (hlenP : b.position.length ≤ 30) :
    (b.empName.length > 30 || b.position.length > 30 ||
      b.department.length > 50 || b.empId.length > 7) = false := by
  have h7 : b.empId.length = 7 := empIdMatches_length (empIdInvalid_matches (hv .empId))
  have hdept : b.department.length ≤ 50 := department_length_le (hv .department)
  simp only [Bool.or_eq_false_iff, decide_eq_false_iff_not, not_lt]
  exact ⟨⟨⟨hlenN, hlenP⟩, hdept⟩, by omega⟩

/-! ### Claim theorems -/

/-- C1 counterexample: the claim as stated fails on the code.  The body
`longNameBody` passes all eight validation rules and reuses the persisted
employee id `ATS0123`, yet the response is 500, not the claimed 409: its
31-character name overflows `employee_name VARCHAR(30)`, raising `22001`
during input coercion — before the unique check — and the handler's catch
answers 500 for every error code other than 23505. -/
theorem submit_duplicate_conflict_counterexample :
    (∀ f : Field, fieldInvalid longNameBody f = false) ∧
    (oneRowStore.rows.filter (fun r => r.employee_id == longNameBody.empId)).length = 1 ∧
    (postSubmit oneRowStore 6 longNameBody).1.status = 500 ∧
    (postSubmit oneRowStore 6 longNameBody).1.status ≠ 409 := by
  refine ⟨by decide, by decide, by decide, by decide⟩

/-- C1 (amended): a submission whose body passes every validation rule,
whose `empName` and `position` each fit the table's `VARCHAR(30)` columns
(at most 30 characters), and whose `empId` equals the `employee_id` of an
already-persisted row is answered with HTTP 409 and body
`{error: "Employee ID already exists"}`, the store is left unchanged, and
afterwards it still holds exactly one row for that employee identifier. -/
theorem submit_duplicate_conflict (st : Store) (now : Nat) (b : Body)
    (hv : ∀ f : Field, fieldInvalid b f = false)
    (hlenN : b.empName.length ≤ 30) (hlenP : b.position.length ≤ 30)
    (hdup : (st.rows.filter (fun r => r.employee_id == b.empId)).length = 1) :
    (postSubmit st now b).1.status = 409 ∧
    (postSubmit st now b).1.errorField = some "Employee ID already exists" ∧
    (postSubmit st now b).2 = st ∧
    ((postSubmit st now b).2.rows.filter (fun r => r.employee_id == b.empId)).length = 1 := by
  have hvn : validate b = none := by
    rw [validate_eq_validateBy]
    exact (validateBy_none_iff _).mpr hv
  have hguard := insert_guard_of_valid hv hlenN hlenP
  have hne : st.rows.filter (fun r => r.employee_id == b.empId) ≠ [] := by
    intro h0
    rw [h0] at hdup
    simp at hdup
  obtain ⟨r, hr⟩ := List.exists_mem_of_ne_nil _ hne
  have hrm := List.mem_filter.mp hr
  have hany : st.rows.any (fun r => r.employee_id == b.empId) = true :=
    List.any_eq_true.mpr ⟨r, hrm.1, hrm.2⟩
  have hpost : postSubmit st now b = (.duplicate, st) := by
    simp [postSubmit, hvn, Store.insert, hguard, hany]
  rw [hpost]
  exact ⟨rfl, rfl, rfl, hdup⟩

/-- Witness for C1: resubmitting the Jane Doe body against the store that
already holds her row yields the 409 conflict and leaves the single row. -/
theorem submit_duplicate_conflict_witness :
    (postSubmit oneRowStore 6 janeDoeBody).1.status = 409 ∧
    (postSubmit oneRowStore 6 janeDoeBody).1.errorField = some "Employee ID already exists" ∧
    (postSubmit oneRowStore 6 janeDoeBody).2 = oneRowStore ∧
    ((postSubmit oneRowStore 6 janeDoeBody).2.rows.filter
        (fun r => r.employee_id == janeDoeBody.empId)).length = 1 :=
  submit_duplicate_conflict oneRowStore 6 janeDoeBody (by decide) (by decide) (by decide)
    (by decide)

/-- C2 counterexample: the claim as stated fails on the code.  The body
`longNameBody` passes all eight validation rules and its employee id is
fresh in the empty store, yet the response is 500, not the claimed 201:
the 31-character name overflows `employee_name VARCHAR(30)`, the insert
raises `22001`, and the handler's catch answers 500 for every error code
other than 23505. -/
theorem submit_valid_created_counterexample :
    (∀ f : Field, fieldInvalid longNameBody f = false) ∧
    ({ rows := [], nextId := 1 } : Store).rows = [] ∧
    (postSubmit { rows := [], nextId := 1 } 5 longNameBody).1.status = 500 ∧
    (postSubmit { rows := [], nextId := 1 } 5 longNameBody).1.status ≠ 201 := by
  refine ⟨by decide, rfl, by decide, by decide⟩

/-- C2 (amended): a submission whose body satisfies all eight validation
rules, whose `empName` and `position` each fit the table's `VARCHAR(30)`
columns (at most 30 characters), and whose `empId` is not yet persisted is
answered with HTTP 201 and the `{message, id}` body carrying the newly
assigned id, and the new row is appended to the store with that id and the
request's timestamp. -/
theorem submit_valid_created (st : Store) (now : Nat) (b : Body)
    (hv : ∀ f : Field, fieldInvalid b f = false)
    (hlenN : b.empName.length ≤ 30) (hlenP : b.position.length ≤ 30)
    (hfresh : ∀ r ∈ st.rows, r.employee_id ≠ b.empId) :
    (postSubmit st now b).1 = .created st.nextId ∧
    (postSubmit st now b).1.status = 201 ∧
    (postSubmit st now b).1.successBody =
      some ("Offboarding form submitted successfully", st.nextId) ∧
    ∃ r : Record, (postSubmit st now b).2.rows = st.rows ++ [r] ∧
      r.id = st.nextId ∧ r.employee_id = b.empId ∧ r.created_at = now := by
  have hvn : validate b = none := by
    rw [validate_eq_validateBy]
    exact (validateBy_none_iff _).mpr hv
  have hguard := insert_guard_of_valid hv hlenN hlenP
  have hany : st.rows.any (fun r => r.employee_id == b.empId) = false := by
    rw [List.any_eq_false]
    intro x hx
    simpa using hfresh x hx
  refine ⟨?_, ?_, ?_,
    ⟨{ id := st.nextId
       employee_name := b.empName
       position := b.position
       department := b.department
       employee_id := b.empId
       feedback := b.feedback
       final_salary := b.finalSalary.getD 0
       bonus := b.bonus.getD 0
       acknowledgment := b.acknowledgment
       created_at := now }, ?_, rfl, rfl, rfl⟩⟩ <;>
    simp [postSubmit, hvn, Store.insert, hguard, hany, SubmitResp.status,
      SubmitResp.successBody]

/-- Witness for C2: submitting the Jane Doe body to the empty store yields
201 with id 1 and appends her row. -/
theorem submit_valid_created_witness :
    (postSubmit { rows := [], nextId := 1 } 5 janeDoeBody).1 = .created 1 ∧
    (postSubmit { rows := [], nextId := 1 } 5 janeDoeBody).1.status = 201 ∧
    (postSubmit { rows := [], nextId := 1 } 5 janeDoeBody).1.successBody =
      some ("Offboarding form submitted successfully", 1) ∧
    ∃ r : Record, (postSubmit { rows := [], nextId := 1 } 5 janeDoeBody).2.rows = [] ++ [r] ∧
      r.id = 1 ∧ r.employee_id = janeDoeBody.empId ∧ r.created_at = 5 :=
  submit_valid_created { rows := [], nextId := 1 } 5 janeDoeBody (by decide) (by decide)
    (by decide) (by intro r hr; simp at hr)

/-- C3: a submission violating at least one validation rule is answered
with HTTP 400 whose `error` string names a failing field (the message
determines the field uniquely), and the store is unchanged. -/
theorem submit_rejected_names_field (st : Store) (now : Nat) (b : Body)
    (hbad : ∃ f : Field, fieldInvalid b f = true) :
    ∃ f : Field, fieldInvalid b f = true ∧
      (postSubmit st now b).1 = .invalid (errorMessage f) ∧
      (postSubmit st now b).1.status = 400 ∧
      (postSubmit st now b).2 = st ∧
      ∀ g : Field, errorMessage g = errorMessage f → g = f := by
  obtain ⟨f0, hf0⟩ := hbad
  obtain ⟨g, hsome, hg, _, _⟩ := validateBy_first (fieldInvalid b) f0 hf0
  have hv : validate b = some g := by
    rw [validate_eq_validateBy]
    exact hsome
  refine ⟨g, hg, ?_, ?_, ?_, fun g' h => errorMessage_injective g' g h⟩ <;>
    simp [postSubmit, hv, SubmitResp.status]

/-- Witness for C3: a body with a malformed employee id is rejected with
400 and the empty store stays empty. -/
theorem submit_rejected_names_field_witness :
    ∃ f : Field, fieldInvalid { janeDoeBody with empId := "BAD" } f = true ∧
      (postSubmit { rows := [], nextId := 1 } 0 { janeDoeBody with empId := "BAD" }).1 =
        .invalid (errorMessage f) ∧
      (postSubmit { rows := [], nextId := 1 } 0 { janeDoeBody with empId := "BAD" }).1.status = 400 ∧
      (postSubmit { rows := [], nextId := 1 } 0 { janeDoeBody with empId := "BAD" }).2 =
        { rows := [], nextId := 1 } ∧
      ∀ g : Field, errorMessage g = errorMessage f → g = f :=
  submit_rejected_names_field { rows := [], nextId := 1 } 0
    { janeDoeBody with empId := "BAD" } ⟨.empId, by decide⟩

/-- C4: whenever some rule fails (in particular when two or more do), the
handler's 400 response names the order-minimal failing field in the fixed
order `empName, position, department, empId, feedback, acknowledgment,
finalSalary, bonus`, and the store is unchanged; `postSubmit` and
`validate` are Lean functions, so validation is deterministic and its only
effect is the returned response. -/
theorem submit_first_failing_rule (st : Store) (now : Nat) (b : Body) (f : Field)
    (hf : fieldInvalid b f = true) :
    ∃ g : Field, fieldInvalid b g = true ∧ ruleIdx g ≤ ruleIdx f ∧
      (∀ h : Field, ruleIdx h < ruleIdx g → fieldInvalid b h = false) ∧
      postSubmit st now b = (.invalid (errorMessage g), st) := by
  obtain ⟨g, hsome, hg, hle, hmin⟩ := validateBy_first (fieldInvalid b) f hf
  have hv : validate b = some g := by
    rw [validate_eq_validateBy]
    exact hsome
  exact ⟨g, hg, hle, hmin, by simp [postSubmit, hv]⟩

/-- Witness for C4: a body violating both the `empId` rule and the `bonus`
rule is rejected for `empId`, the earlier rule in the fixed order. -/
theorem submit_first_failing_rule_witness :
    ∃ g : Field,
      fieldInvalid { janeDoeBody with empId := "BAD", bonus := some 200000 } g = true ∧
      ruleIdx g ≤ ruleIdx Field.bonus ∧
      (∀ h : Field, ruleIdx h < ruleIdx g →
        fieldInvalid { janeDoeBody with empId := "BAD", bonus := some 200000 } h = false) ∧
      postSubmit { rows := [], nextId := 1 } 0
          { janeDoeBody with empId := "BAD", bonus := some 200000 } =
        (.invalid (errorMessage g), { rows := [], nextId := 1 }) :=
  submit_first_failing_rule { rows := [], nextId := 1 } 0
    { janeDoeBody with empId := "BAD", bonus := some 200000 } .bonus (by decide)

lemma digitChar_isDigit {d : Nat} (hd : d < 10) : (Nat.digitChar d).isDigit = true := by
  interval_cases d <;> decide

lemma digitChar_eq_zero_iff {d : Nat} (hd : d < 10) : Nat.digitChar d = '0' ↔ d = 0 := by
  interval_cases d <;> decide

/-- C5: the `empId` validation accepts a string iff it is the literal
prefix `ATS0` followed by exactly three digits that are not `000`; each of
`ATS0001` .. `ATS0999` is accepted, while `ATS0000` and the longer
`ATS01234` are rejected. -/
theorem empId_rule_characterization :
    (∀ s : String, empIdMatches s = true ↔ empIdSpec s) ∧
    (∀ n : Nat, 1 ≤ n → n ≤ 999 → empIdMatches ("ATS0" ++ pad3 n) = true) ∧
    empIdMatches "ATS0000" = false ∧
    empIdMatches "ATS01234" = false := by
  refine ⟨?_, ?_, by decide, by decide⟩
  · intro s
    obtain ⟨l⟩ := s
    constructor
    · intro h
      unfold empIdMatches at h
      split at h
      next d1 d2 d3 heq =>
        simp only [Bool.and_eq_true] at h
        obtain ⟨⟨⟨h1, h2⟩, h3⟩, h4⟩ := h
        refine ⟨⟨[d1, d2, d3]⟩, String.ext ?_, rfl, ?_, ?_⟩
        · exact heq
        · intro c hc
          simp only [List.mem_cons, List.not_mem_nil, or_false] at hc
          rcases hc with rfl | rfl | rfl
          · exact h1
          · exact h2
          · exact h3
        · intro heq
          have hlist : [d1, d2, d3] = ['0', '0', '0'] := congrArg String.data heq
          simp only [List.cons.injEq, and_true] at hlist
          obtain ⟨e1, e2, e3⟩ := hlist
          subst e1
          subst e2
          subst e3
          exact absurd h4 (by decide)
      next =>
        exact absurd h (by simp)
    · rintro ⟨t, hs, hlen, hdig, hne⟩
      obtain ⟨m⟩ := t
      rw [String.length_mk] at hlen
      rcases m with _ | ⟨d1, m⟩
      · simp at hlen
      rcases m with _ | ⟨d2, m⟩
      · simp at hlen
      rcases m with _ | ⟨d3, m⟩
      · simp at hlen
      rcases m with _ | ⟨d4, m⟩
      · have hl : l = 'A' :: 'T' :: 'S' :: '0' :: [d1, d2, d3] :=
          (congrArg String.data hs).trans rfl
        subst hl
        have hd1 : d1.isDigit = true := hdig d1 (by simp)
        have hd2 : d2.isDigit = true := hdig d2 (by simp)
        have hd3 : d3.isDigit = true := hdig d3 (by simp)
        show (d1.isDigit && d2.isDigit && d3.isDigit &&
          !(d1 == '0' && d2 == '0' && d3 == '0')) = true
        rw [hd1, hd2, hd3]
        cases hc : (d1 == '0' && d2 == '0' && d3 == '0') with
        | false => rfl
        | true =>
          exfalso
          simp only [Bool.and_eq_true, beq_iff_eq] at hc
          obtain ⟨⟨e1, e2⟩, e3⟩ := hc
          subst e1
          subst e2
          subst e3
          exact hne rfl
      · simp at hlen
  · intro n h1 h999
    have p1 : (Nat.digitChar (n / 100 % 10)).isDigit = true :=
      digitChar_isDigit (Nat.mod_lt _ (by norm_num))
    have p2 : (Nat.digitChar (n / 10 % 10)).isDigit = true :=
      digitChar_isDigit (Nat.mod_lt _ (by norm_num))
    have p3 : (Nat.digitChar (n % 10)).isDigit = true :=
      digitChar_isDigit (Nat.mod_lt _ (by norm_num))
    show ((Nat.digitChar (n / 100 % 10)).isDigit && (Nat.digitChar (n / 10 % 10)).isDigit &&
      (Nat.digitChar (n % 10)).isDigit &&
      !(Nat.digitChar (n / 100 % 10) == '0' && Nat.digitChar (n / 10 % 10) == '0' &&
        Nat.digitChar (n % 10) == '0')) = true
    rw [p1, p2, p3]
    cases hc : (Nat.digitChar (n / 100 % 10) == '0' && Nat.digitChar (n / 10 % 10) == '0' &&
        Nat.digitChar (n % 10) == '0') with
    | false => rfl
    | true =>
      exfalso
      simp only [Bool.and_eq_true, beq_iff_eq] at hc
      obtain ⟨⟨e1, e2⟩, e3⟩ := hc
      rw [digitChar_eq_zero_iff (Nat.mod_lt _ (by norm_num))] at e1 e2 e3
      omega

/-- Witness for C5: instantiating the characterization at `ATS0123`. -/
theorem empId_rule_characterization_witness : empIdMatches "ATS0123" = true :=
  (empId_rule_characterization.2.1) 123 (by norm_num) (by norm_num)

/-- C6: the numeric validations are inclusive on both bounds:
`finalSalary` is accepted iff it parses as a number `v` with
`1000 ≤ v ≤ 1000000`, `bonus` iff `0 ≤ v ≤ 100000`; the stated boundary
values behave as claimed. -/
theorem numeric_bounds_inclusive :
    (∀ x : Option ℚ, finalSalaryInvalid x = false ↔
      ∃ v : ℚ, x = some v ∧ 1000 ≤ v ∧ v ≤ 1000000) ∧
    (∀ x : Option ℚ, bonusInvalid x = false ↔
      ∃ v : ℚ, x = some v ∧ 0 ≤ v ∧ v ≤ 100000) ∧
    finalSalaryInvalid (some 1000) = false ∧ finalSalaryInvalid (some 1000000) = false ∧
    finalSalaryInvalid (some 999) = true ∧ finalSalaryInvalid (some 1000001) = true ∧
    bonusInvalid (some 0) = false ∧ bonusInvalid (some 100000) = false ∧
    bonusInvalid (some (-1)) = true ∧ bonusInvalid (some 100001) = true := by
  refine ⟨?_, ?_, by decide, by decide, by decide, by decide, by decide, by decide,
    by decide, by decide⟩
  · intro x
    cases x with
    | none => simp [finalSalaryInvalid]
    | some v => simp [finalSalaryInvalid, not_lt]
  · intro x
    cases x with
    | none => simp [bonusInvalid]
    | some v => simp [bonusInvalid, not_lt]

/-! ### The character-class argument for the feedback/acknowledgment rule

The regex class `[0-9\s\W_]` (digits, whitespace, non-word characters,
underscore) contains exactly the characters that are not letters, so the
regex `/^[0-9\s\W_]+$/` matches exactly the non-empty strings with no
alphabetic character. -/

lemma isAlpha_isDigit_false {c : Char} (h : c.isAlpha = true) : c.isDigit = false := by
  cases hd : c.isDigit with
  | false => rfl
  | true =>
    simp only [Char.isAlpha, Char.isUpper, Char.isLower, Char.isDigit, Bool.or_eq_true,
      Bool.and_eq_true, decide_eq_true_eq, ge_iff_le, UInt32.le_def, BitVec.le_def] at h hd
    norm_num at h hd
    omega

lemma isAlpha_isWhitespace_false {c : Char} (h : c.isAlpha = true) : c.isWhitespace = false := by
  cases hw : c.isWhitespace with
  | false => rfl
  | true =>
    simp only [Char.isWhitespace, Bool.or_eq_true, decide_eq_true_eq] at hw
    rcases hw with ((h1 | h1) | h1) | h1 <;> subst h1 <;> exact absurd h (by decide)

lemma isAlpha_underscore_false {c : Char} (h : c.isAlpha = true) : (c == '_') = false := by
  cases he : c == '_' with
  | false => rfl
  | true =>
    have hc : c = '_' := eq_of_beq he
    subst hc
    exact absurd h (by decide)

lemma rejectClassChar_eq_not_isAlpha (c : Char) : rejectClassChar c = !c.isAlpha := by
  cases ha : c.isAlpha with
  | true =>
    simp [rejectClassChar, isWordChar, Char.isAlphanum, ha, isAlpha_isDigit_false ha,
      isAlpha_isWhitespace_false ha, isAlpha_underscore_false ha]
  | false =>
    cases hd : c.isDigit with
    | true => simp [rejectClassChar, hd]
    | false =>
      cases hu : c == '_' with
      | true => simp [rejectClassChar, hu]
      | false => simp [rejectClassChar, isWordChar, Char.isAlphanum, ha, hd, hu]

lemma allRejectClass_eq (s : String) :
    allRejectClass s = (!s.data.isEmpty && s.data.all fun c => !c.isAlpha) := by
  unfold allRejectClass
  rw [funext rejectClassChar_eq_not_isAlpha]

/-- Shared shape of the feedback and acknowledgment guards: the guard is
false (the value accepted) iff the text is non-empty, within the length
limit, and contains at least one alphabetic character. -/
lemma textInvalid_iff (l : List Char) (limit : Nat) :
    (((⟨l⟩ : String) == "") || decide ((⟨l⟩ : String).length > limit) ||
        allRejectClass ⟨l⟩) = false ↔
      (l.length ≠ 0 ∧ l.length ≤ limit ∧ ∃ c ∈ l, c.isAlpha = true) := by
  rw [Bool.or_eq_false_iff, Bool.or_eq_false_iff, allRejectClass_eq]
  constructor
  · rintro ⟨⟨hA, hB⟩, hC⟩
    have hne : l ≠ [] := by
      intro h0
      subst h0
      simp at hA
    refine ⟨fun h0 => hne (List.length_eq_zero.mp h0), ?_, ?_⟩
    · have hnot := of_decide_eq_false hB
      rw [String.length_mk] at hnot
      omega
    · rw [Bool.and_eq_false_iff] at hC
      rcases hC with hC | hC
      · exfalso
        have hemp : l = [] := by simpa using hC
        exact hne hemp
      · obtain ⟨c, hcl, hcp⟩ := List.all_eq_false.mp hC
        exact ⟨c, hcl, by simpa using hcp⟩
  · rintro ⟨h0, hlim, c, hcl, hca⟩
    refine ⟨⟨?_, ?_⟩, ?_⟩
    · rw [beq_eq_false_iff_ne]
      intro he
      have hl : l = [] := String.ext_iff.mp he
      exact h0 (by simp [hl])
    · rw [String.length_mk]
      exact decide_eq_false (by omega)
    · rw [Bool.and_eq_false_iff]
      right
      rw [List.all_eq_false]
      exact ⟨c, hcl, by simp [hca]⟩

/-- C7: feedback is accepted iff non-empty, at most 500 characters, and
containing at least one alphabetic character; acknowledgment obeys the
same rule with a 300-character limit. -/
theorem feedback_acknowledgment_rule :
    (∀ s : String, feedbackInvalid s = false ↔
      (s.length ≠ 0 ∧ s.length ≤ 500 ∧ ∃ c ∈ s.data, c.isAlpha = true)) ∧
    (∀ s : String, acknowledgmentInvalid s = false ↔
      (s.length ≠ 0 ∧ s.length ≤ 300 ∧ ∃ c ∈ s.data, c.isAlpha = true)) := by
  constructor
  · intro s
    obtain ⟨l⟩ := s
    exact textInvalid_iff l 500
  · intro s
    obtain ⟨l⟩ := s
    exact textInvalid_iff l 300

/-- Witness for C6: the characterization applied to the concrete salary
75000 accepts it. -/
theorem numeric_bounds_inclusive_witness : finalSalaryInvalid (some 75000) = false :=
  (numeric_bounds_inclusive.1 (some 75000)).mpr ⟨75000, rfl, by norm_num, by norm_num⟩

/-- Witness for C7: the characterization applied to the concrete feedback
string accepts it. -/
theorem feedback_acknowledgment_rule_witness : feedbackInvalid "ok" = false :=
  (feedback_acknowledgment_rule.1 "ok").mpr ⟨by decide, by decide, 'o', by decide, by decide⟩

/-- C8: for every store state, `GET /api/offboarding` answers 200 with the
projections (exactly the aliased columns `empName, position, department,
empId, feedback, finalSalary, bonus, acknowledgment, createdAt`, the shape
of `ListedRecord`) of all stored rows, ordered newest-first by creation
time, and an empty store yields the empty array rather than an error. -/
theorem get_offboarding_ordered (st : Store) :
    (getOffboarding st).1 = 200 ∧
    List.Pairwise (fun a b : ListedRecord => b.createdAt ≤ a.createdAt)
      (getOffboarding st).2 ∧
    (getOffboarding st).2.Perm (st.rows.map project) ∧
    (st.rows = [] → (getOffboarding st).2 = []) := by
  refine ⟨rfl, ?_, ?_, ?_⟩
  · show List.Pairwise _ ((st.rows.mergeSort newestFirst).map project)
    rw [List.pairwise_map]
    have hs : (st.rows.mergeSort newestFirst).Pairwise (fun a b => newestFirst a b) := by
      apply List.sorted_mergeSort
      · intro a b c hab hbc
        exact decide_eq_true (le_trans (of_decide_eq_true hbc) (of_decide_eq_true hab))
      · intro a b
        simp only [newestFirst, Bool.or_eq_true, decide_eq_true_eq]
        exact Nat.le_total _ _
    exact hs.imp fun h => of_decide_eq_true h
  · show ((st.rows.mergeSort newestFirst).map project).Perm (st.rows.map project)
    exact (List.mergeSort_perm st.rows newestFirst).map project
  · intro h
    simp [getOffboarding, listAll, h]

/-- Witness for C8: the empty store is answered 200 with the empty array. -/
theorem get_offboarding_ordered_witness :
    (getOffboarding { rows := [], nextId := 1 }).1 = 200 ∧
    (getOffboarding { rows := [], nextId := 1 }).2 = [] :=
  ⟨(get_offboarding_ordered { rows := [], nextId := 1 }).1,
   (get_offboarding_ordered { rows := [], nextId := 1 }).2.2.2 rfl⟩

/-- C9 counterexample: the health handler reports from `pool.totalCount`,
not from reachability.  With one client object still pooled while the
store is unreachable it answers `connected`; with an empty pool over a
reachable store it answers `disconnected`.  Either concrete state refutes
the claim that the `database` field equals `connected` exactly when the
store is reachable. -/
theorem health_database_counterexample :
    healthDatabase { totalCount := 1, reachable := false } = "connected" ∧
    healthDatabase { totalCount := 0, reachable := true } = "disconnected" := by
  constructor <;> rfl

/-- C9 amended: the `database` field of `GET /api/health` is `connected`
exactly when the pool currently holds at least one client object
(`pool.totalCount > 0`) and `disconnected` exactly when it holds none;
actual store reachability is not consulted. -/
theorem health_database_pool_count (p : PoolState) :
    (healthResponse p).1 = 200 ∧
    ((healthResponse p).2 = "connected" ↔ 0 < p.totalCount) ∧
    ((healthResponse p).2 = "disconnected" ↔ p.totalCount = 0) := by
  by_cases h : 0 < p.totalCount
  · refine ⟨rfl, ?_, ?_⟩
    · simp [healthResponse, healthDatabase, h]
    · simp [healthResponse, healthDatabase, h]
      omega
  · refine ⟨rfl, ?_, ?_⟩
    · simp [healthResponse, healthDatabase, h]
    · simp [healthResponse, healthDatabase, h]
      omega

/-- Witness for the amended C9: a pool with three clients reports
`connected` regardless of the `reachable` flag. -/
theorem health_database_pool_count_witness :
    (healthResponse { totalCount := 3, reachable := false }).2 = "connected" :=
  (health_database_pool_count { totalCount := 3, reachable := false }).2.1.mpr (by norm_num)

/-! ### Startup retry lemmas -/

lemma connectWithRetry_some {outcome : Nat → Bool} :
    ∀ {fuel start k : Nat}, connectWithRetry outcome fuel start = some k →
      start ≤ k ∧ k < start + fuel ∧ outcome k = true ∧
        ∀ j, start ≤ j → j < k → outcome j = false := by
  intro fuel
  induction fuel with
  | zero =>
    intro start k h
    simp [connectWithRetry] at h
  | succ n ih =>
    intro start k h
    rw [connectWithRetry] at h
    cases ho : outcome start with
    | true =>
      rw [if_pos ho] at h
      obtain rfl : start = k := by simpa using h
      exact ⟨le_refl _, by omega, ho, fun j hj1 hj2 => absurd (lt_of_le_of_lt hj1 hj2) (lt_irrefl _)⟩
    | false =>
      rw [if_neg (Bool.eq_false_iff.mp ho)] at h
      obtain ⟨h1, h2, h3, h4⟩ := ih h
      refine ⟨by omega, by omega, h3, ?_⟩
      intro j hj1 hj2
      rcases Nat.eq_or_lt_of_le hj1 with rfl | hj1'
      · exact ho
      · exact h4 j (by omega) hj2

lemma connectWithRetry_isNone {outcome : Nat → Bool} :
    ∀ {fuel start : Nat}, (∀ j, start ≤ j → j < start + fuel → outcome j = false) →
      connectWithRetry outcome fuel start = none := by
  intro fuel
  induction fuel with
  | zero => intro start _; rfl
  | succ n ih =>
    intro start h
    rw [connectWithRetry]
    rw [if_neg (Bool.eq_false_iff.mp (h start (le_refl _) (by omega)))]
    exact ih fun j hj1 hj2 => h j (by omega) (by omega)

lemma retryWaits_of_some {outcome : Nat → Bool} {delay : Nat} :
    ∀ {fuel start k : Nat}, connectWithRetry outcome fuel start = some k →
      retryWaits outcome delay fuel start = delay * (k - start) := by
  intro fuel
  induction fuel with
  | zero =>
    intro start k h
    simp [connectWithRetry] at h
  | succ n ih =>
    intro start k h
    rw [connectWithRetry] at h
    rw [retryWaits]
    cases ho : outcome start with
    | true =>
      rw [if_pos ho] at h
      obtain rfl : start = k := by simpa using h
      simp
    | false =>
      rw [if_neg (Bool.eq_false_iff.mp ho)] at h
      have hk := (connectWithRetry_some h).1
      cases n with
      | zero => simp [connectWithRetry] at h
      | succ m =>
        rw [if_neg (by decide : ¬ (false = true)), if_neg (Nat.succ_ne_zero m)]
        rw [ih h]
        have hks : k - start = (k - (start + 1)) + 1 := by omega
        rw [hks, Nat.mul_succ]
        omega

lemma retryWaits_of_none {outcome : Nat → Bool} {delay : Nat} :
    ∀ {fuel start : Nat}, connectWithRetry outcome fuel start = none → 1 ≤ fuel →
      retryWaits outcome delay fuel start = delay * (fuel - 1) := by
  intro fuel
  induction fuel with
  | zero =>
    intro start _ h1
    omega
  | succ n ih =>
    intro start h _
    rw [connectWithRetry] at h
    rw [retryWaits]
    cases ho : outcome start with
    | true =>
      rw [if_pos ho] at h
      simp at h
    | false =>
      rw [if_neg (Bool.eq_false_iff.mp ho)] at h
      rw [if_neg (by decide : ¬ (false = true))]
      cases n with
      | zero => simp
      | succ m =>
        rw [if_neg (Nat.succ_ne_zero m), ih h (by omega)]
        have : (m + 1 + 1 - 1) = (m + 1 - 1) + 1 := by omega
        rw [this, Nat.mul_succ]
        omega

/-- C10: startup attempts store connectivity at most `maxAttempts = 5`
times with a fixed `retryDelayMs = 5000` sleep between consecutive
attempts; the server reaches `app.listen` only when some attempt among the
first five succeeded and the schema statement succeeded, and when all five
attempts fail the process exits and never serves traffic. -/
theorem startup_bounded_retries (outcome : Nat → Bool) (schemaOk : Bool) :
    ((∀ j, j < maxAttempts → outcome j = false) → startup outcome schemaOk = .exited) ∧
    (startup outcome schemaOk = .ready →
      schemaOk = true ∧ ∃ k, k < maxAttempts ∧ outcome k = true) ∧
    (∀ k, connectWithRetry outcome maxAttempts 0 = some k →
      k < maxAttempts ∧ outcome k = true ∧ (∀ j, j < k → outcome j = false) ∧
      retryWaits outcome retryDelayMs maxAttempts 0 = retryDelayMs * k) ∧
    (connectWithRetry outcome maxAttempts 0 = none →
      retryWaits outcome retryDelayMs maxAttempts 0 = retryDelayMs * (maxAttempts - 1)) := by
  refine ⟨?_, ?_, ?_, ?_⟩
  · intro hall
    have hnone : connectWithRetry outcome maxAttempts 0 = none :=
      connectWithRetry_isNone fun j _ hj => hall j (by simpa using hj)
    rw [startup, hnone]
  · intro hready
    rw [startup] at hready
    cases hc : connectWithRetry outcome maxAttempts 0 with
    | none =>
      rw [hc] at hready
      exact absurd hready (by simp)
    | some k =>
      rw [hc] at hready
      obtain ⟨_, h2, h3, _⟩ := connectWithRetry_some hc
      cases schemaOk with
      | false => exact absurd hready (by simp)
      | true => exact ⟨rfl, k, by simpa using h2, h3⟩
  · intro k hc
    obtain ⟨_, h2, h3, h4⟩ := connectWithRetry_some hc
    refine ⟨by simpa using h2, h3, fun j hj => h4 j (Nat.zero_le _) hj, ?_⟩
    have hw : retryWaits outcome retryDelayMs maxAttempts 0 = retryDelayMs * (k - 0) :=
      retryWaits_of_some hc
    simpa using hw
  · intro hc
    exact retryWaits_of_none hc (by norm_num [maxAttempts])

/-- Witness for C10: with every attempt failing the process exits, and
with the third attempt (index 2) succeeding the loop stops there after two
5-second sleeps. -/
theorem startup_bounded_retries_witness :
    startup (fun _ => false) true = .exited ∧
    (2 < maxAttempts ∧ ((2 : Nat) == 2) = true ∧
      (∀ j, j < 2 → ((j == 2 : Bool)) = false) ∧
      retryWaits (fun k => k == 2) retryDelayMs maxAttempts 0 = retryDelayMs * 2) :=
  ⟨(startup_bounded_retries (fun _ => false) true).1 (fun j _ => rfl),
   (startup_bounded_retries (fun k => k == 2) true).2.2.1 2 (by decide)⟩

end Offboarding
